import Mathlib

/-!
A shallow embedding of the scoring, ranking and caching pipeline of the
utility-shopping-assistant repository, together with proofs checking the
natural-language specification against the code.

Conventions of the embedding:
* Python dicts for products become the `Product` structure.  A dict key that
  may be absent is an `Option` field when callers distinguish absence
  (`features`, `price`, `rating`); keys that are only ever read through
  `.get(k, default)` are plain fields whose default value stands for absence
  (`review_count`, `matched_preferences`, the score fields, `over_budget`).
* Python floats are modelled as exact rationals (`ℚ`).  Every concrete input
  used in a theorem below only involves dyadic values on which IEEE double
  arithmetic is exact, so the rational model and the float program agree there.
* `math.log10` is a float function with no rational counterpart; it is passed
  in as an uninterpreted parameter `lg : ℕ → ℚ` (it is only reachable when a
  product has a rating and enough reviews, and no theorem depends on its
  values).  Similarly Python number formatting (f-strings, `format_currency`)
  is passed in as uninterpreted string-producing parameters.
* Functions that raise return `Except PyErr`; an uncaught Python exception is
  `Except.error`.
* Strings are treated as their character lists; `str.lower`, `\w`, whitespace
  and `str.strip` are modelled at ASCII precision, which covers every literal
  appearing in the code and in the concrete inputs below.
-/

namespace ShopAssist

/-- Python exception values that the modelled code can raise
(`src/utils/exceptions.py` plus builtin `ValueError`). -/
inductive PyErr where
  | scraping (msg : String)
  | cache (msg : String)
  | noResults (msg : String)
  | valueError (msg : String)
  deriving Repr, DecidableEq

/-- One product listing (the dict built in `DataCollector._normalize_data` and
consumed by `ProductAnalyzer`).  `features = none` models a dict with no
`features` key (needed because `extract_key_features` distinguishes the two);
`over_budget = false` models the absent `over_budget` key (the code only ever
writes `True` into it). -/
structure Product where
  name : String := ""
  url : String := ""
  price : Option ℚ := none
  rating : Option ℚ := none
  review_count : ℕ := 0
  features : Option (List String) := none
  platform : String := ""
  matched_preferences : List String := []
  preference_score : ℚ := 0
  review_score : ℚ := 0
  price_score : ℚ := 0
  combined_score : ℚ := 0
  over_budget : Bool := false
  deriving Repr, DecidableEq

/-- The analyzer/recommendation configuration values read from `config.py`. -/
structure Config where
  budget_flexibility : ℚ := 1/10
  min_reviews : ℕ := 10
  top_recommendations : ℕ := 5
  deriving Repr, DecidableEq

/-! ### String helpers (ASCII models of the Python string operations used) -/

/-- `str.lower` on a character list (ASCII). -/
def lowerL (l : List Char) : List Char := l.map Char.toLower

/-- `str.lower` (ASCII). -/
def pyLower (s : String) : String := String.mk (lowerL s.data)

/-- Does `text` start with `pat`? -/
def startsL : List Char → List Char → Bool
  | _, [] => true
  | [], _ :: _ => false
  | c :: cs, d :: ds => (c == d) && startsL cs ds

/-- Python's `pat in text` substring test, on character lists. -/
def containsSubL : List Char → List Char → Bool
  | [], pat => pat.isEmpty
  | c :: ts, pat => startsL (c :: ts) pat || containsSubL ts pat

/-- Python's `pat in text` substring test on strings. -/
def containsStr (text pat : String) : Bool := containsSubL text.data pat.data

/-- Helper for `str.split()`: accumulate the current word (reversed) while
scanning. -/
def wordsAux : List Char → List Char → List (List Char)
  | acc, [] => if acc.isEmpty then [] else [acc.reverse]
  | acc, c :: cs =>
    if c.isWhitespace then
      if acc.isEmpty then wordsAux [] cs else acc.reverse :: wordsAux [] cs
    else wordsAux (c :: acc) cs

/-- Python `str.split()` with no argument: split on whitespace runs,
discarding empty pieces. -/
def pySplitWs (s : String) : List String := (wordsAux [] s.data).map String.mk

/-- Python `sep.join(l)` (structural, so that concrete proofs can reduce). -/
def joinSep (sep : String) : List String → String
  | [] => ""
  | [a] => a
  | a :: b :: rest => a ++ sep ++ joinSep sep (b :: rest)

/-- Python `' '.join(l)`. -/
def joinSpace (l : List String) : String := joinSep " " l

/-- Helper for `str.split(',')`: accumulate the current piece (reversed). -/
def splitCharAux (sep : Char) : List Char → List Char → List (List Char)
  | acc, [] => [acc.reverse]
  | acc, c :: cs =>
    if c == sep then acc.reverse :: splitCharAux sep [] cs
    else splitCharAux sep (c :: acc) cs

/-- Python `str.split(',')`: split at every comma, keeping empty pieces. -/
def splitComma (s : String) : List String := (splitCharAux ',' [] s.data).map String.mk

/-- Python `str.strip()`: drop leading and trailing whitespace (ASCII). -/
def pyStrip (s : String) : String :=
  String.mk (((s.data.dropWhile Char.isWhitespace).reverse.dropWhile
    Char.isWhitespace).reverse)

/-- Python `str.capitalize()`: upper-case the first character and lower-case
the rest (ASCII). -/
def pyCapitalize (s : String) : String :=
  match s.data with
  | [] => ""
  | c :: cs => String.mk (c.toUpper :: lowerL cs)

/-! ### Stable sorts

Python's `list.sort` / `sorted` are stable.  `sortAscBy` is a stable
ascending insertion sort by a key (model of `list.sort(key=...)`), and
`sortDescBy` a stable descending one (model of `sorted(key=..., reverse=True)`
and of `list.sort(key=..., reverse=True)`).  Stability is proved below. -/

variable {α : Type} {β : Type} [LinearOrder β]

/-- Insert `x` (which precedes all of `l` in the original list) into the
ascending-sorted `l`, before the first element whose key is `≥ key x`. -/
def insA (key : α → β) (x : α) : List α → List α
  | [] => [x]
  | y :: ys => if key x ≤ key y then x :: y :: ys else y :: insA key x ys

/-- Stable ascending sort by key. -/
def sortAscBy (key : α → β) : List α → List α
  | [] => []
  | x :: xs => insA key x (sortAscBy key xs)

/-- Insert `x` (which precedes all of `l` in the original list) into the
descending-sorted `l`, before the first element whose key is `≤ key x`. -/
def insD (key : α → β) (x : α) : List α → List α
  | [] => [x]
  | y :: ys => if key y ≤ key x then x :: y :: ys else y :: insD key x ys

/-- Stable descending sort by key. -/
def sortDescBy (key : α → β) : List α → List α
  | [] => []
  | x :: xs => insD key x (sortDescBy key xs)

theorem perm_insA (key : α → β) (x : α) (l : List α) :
    List.Perm (insA key x l) (x :: l) := by
  induction l with
  | nil => simp [insA]
  | cons y ys ih =>
    simp only [insA]
    split
    · exact List.Perm.refl _
    · exact (ih.cons y).trans (List.Perm.swap x y ys)

theorem perm_sortAscBy (key : α → β) (l : List α) :
    List.Perm (sortAscBy key l) l := by
  induction l with
  | nil => simp [sortAscBy]
  | cons x xs ih => exact (perm_insA key x _).trans (ih.cons x)

theorem perm_insD (key : α → β) (x : α) (l : List α) :
    List.Perm (insD key x l) (x :: l) := by
  induction l with
  | nil => simp [insD]
  | cons y ys ih =>
    simp only [insD]
    split
    · exact List.Perm.refl _
    · exact (ih.cons y).trans (List.Perm.swap x y ys)

theorem perm_sortDescBy (key : α → β) (l : List α) :
    List.Perm (sortDescBy key l) l := by
  induction l with
  | nil => simp [sortDescBy]
  | cons x xs ih => exact (perm_insD key x _).trans (ih.cons x)

theorem length_sortAscBy (key : α → β) (l : List α) :
    (sortAscBy key l).length = l.length :=
  (perm_sortAscBy key l).length_eq

theorem mem_sortAscBy {key : α → β} {l : List α} {a : α} :
    a ∈ sortAscBy key l ↔ a ∈ l :=
  (perm_sortAscBy key l).mem_iff

theorem pairwise_insA (key : α → β) (x : α) {l : List α}
    (h : l.Pairwise (fun a b => key a ≤ key b)) :
    (insA key x l).Pairwise (fun a b => key a ≤ key b) := by
  induction l with
  | nil => simp [insA]
  | cons y ys ih =>
    rcases List.pairwise_cons.mp h with ⟨hy, hys⟩
    simp only [insA]
    split
    · rename_i hxy
      refine List.pairwise_cons.mpr ⟨?_, h⟩
      intro z hz
      rcases List.mem_cons.mp hz with rfl | hz
      · exact hxy
      · exact le_trans hxy (hy z hz)
    · rename_i hxy
      refine List.pairwise_cons.mpr ⟨?_, ih hys⟩
      intro z hz
      have hz' := (perm_insA key x ys).mem_iff.mp hz
      rcases List.mem_cons.mp hz' with rfl | h2
      · exact le_of_lt (lt_of_not_le hxy)
      · exact hy z h2

theorem pairwise_sortAscBy (key : α → β) (l : List α) :
    (sortAscBy key l).Pairwise (fun a b => key a ≤ key b) := by
  induction l with
  | nil => simp [sortAscBy]
  | cons x xs ih => exact pairwise_insA key x ih

/-- Stability of the descending insertion: filtering at any key level `c`
commutes with the insertion (skipped elements all have keys `> key x`). -/
theorem filter_insD (key : α → β) (c : β) (x : α) (l : List α) :
    (insD key x l).filter (fun a => decide (key a = c)) =
      if key x = c then x :: l.filter (fun a => decide (key a = c))
      else l.filter (fun a => decide (key a = c)) := by
  induction l with
  | nil =>
    by_cases hx : key x = c <;> simp [insD, List.filter_singleton, hx]
  | cons y ys ih =>
    simp only [insD]
    by_cases hyx : key y ≤ key x
    · simp only [if_pos hyx]
      by_cases hx : key x = c <;> simp [List.filter_cons, hx]
    · simp only [if_neg hyx]
      have hylt : key x < key y := lt_of_not_le hyx
      by_cases hx : key x = c
      · have hy : ¬ key y = c := by
          intro hyc
          exact absurd (hyc.trans hx.symm ▸ hylt) (lt_irrefl _)
        simp [List.filter_cons, hy, ih, hx]
      · by_cases hy : key y = c <;> simp [List.filter_cons, hy, ih, hx]

/-- Python's stable descending sort preserves, at every key level, the
relative order of its input. -/
theorem filter_sortDescBy (key : α → β) (c : β) (l : List α) :
    (sortDescBy key l).filter (fun a => decide (key a = c)) =
      l.filter (fun a => decide (key a = c)) := by
  induction l with
  | nil => simp [sortDescBy]
  | cons x xs ih =>
    simp only [sortDescBy, filter_insD, ih]
    by_cases hx : key x = c <;> simp [List.filter_cons, hx]

/-! ### `ProductAnalyzer.filter_by_budget` (`src/modules/product_analyzer.py` 27-68) -/

/-- The sort key of `over_budget_products.sort(key=lambda p: p.get('price',
float('inf')))`: a missing price sorts as `+∞` (`⊤`). -/
def priceKeyW (p : Product) : WithTop ℚ :=
  match p.price with
  | some v => (v : WithTop ℚ)
  | none => ⊤

/-- `price is not None and price <= budget` — the primary-pool test. -/
def withinB (budget : ℚ) (p : Product) : Bool :=
  match p.price with
  | some v => decide (v ≤ budget)
  | none => false

/-- `price is not None and budget < price <= max_price` — the secondary-pool
test. -/
def overB (budget maxP : ℚ) (p : Product) : Bool :=
  match p.price with
  | some v => decide (budget < v) && decide (v ≤ maxP)
  | none => false

/-- `product['over_budget'] = True`. -/
def markOver (p : Product) : Product := {p with over_budget := true}

/-- The loop of `filter_by_budget` (lines 47-58): walk the products once,
collecting the within-budget pool and the over-budget-within-flexibility pool
(the latter marked `over_budget=true`), both in input order. -/
def budgetPartition (budget maxP : ℚ) : List Product → List Product × List Product
  | [] => ([], [])
  | p :: ps =>
    let rest := budgetPartition budget maxP ps
    match p.price with
    | none => rest
    | some v =>
      if v ≤ budget then (p :: rest.1, rest.2)
      else if v ≤ maxP then (rest.1, markOver p :: rest.2)
      else rest

theorem budgetPartition_eq (budget maxP : ℚ) (l : List Product) :
    budgetPartition budget maxP l =
      (l.filter (withinB budget), (l.filter (overB budget maxP)).map markOver) := by
  induction l with
  | nil => simp [budgetPartition]
  | cons p ps ih =>
    simp only [budgetPartition, ih]
    cases hp : p.price with
    | none => simp [List.filter_cons, withinB, overB, hp]
    | some v =>
      by_cases h1 : v ≤ budget
      · simp [List.filter_cons, withinB, overB, hp, h1, not_lt.mpr h1]
      · by_cases h2 : v ≤ maxP <;>
          simp [List.filter_cons, withinB, overB, hp, h1, h2, lt_of_not_le h1]

/-- `ProductAnalyzer.filter_by_budget`.  `flex` is
`self.budget_flexibility = config.BUDGET_FLEXIBILITY` (0.1 in `config.py`).
If fewer than 3 products are within budget, the pool is backfilled from the
over-budget pool, cheapest first, up to 3 entries. -/
def filterByBudget (flex budget : ℚ) (products : List Product) : List Product :=
  let maxP := budget * (1 + flex)
  let pools := budgetPartition budget maxP products
  if pools.1.length < 3 ∧ ¬ pools.2.isEmpty then
    pools.1 ++ (sortAscBy priceKeyW pools.2).take (3 - pools.1.length)
  else pools.1

/-- The primary (within-budget) pool, in input order. -/
def withinPool (budget : ℚ) (products : List Product) : List Product :=
  products.filter (withinB budget)

/-- The secondary (over-budget-within-flexibility) pool, marked
`over_budget=true`, in input order. -/
def overPool (budget maxP : ℚ) (products : List Product) : List Product :=
  (products.filter (overB budget maxP)).map markOver

/-- How many entries the backfill step takes from the sorted secondary pool. -/
def backfillCount (w : ℕ) : ℕ := if w < 3 then 3 - w else 0

/-- `filter_by_budget` written as primary pool ++ cheapest-first backfill. -/
theorem filterByBudget_eq (flex budget : ℚ) (products : List Product) :
    filterByBudget flex budget products =
      withinPool budget products ++
        (sortAscBy priceKeyW (overPool budget (budget * (1 + flex)) products)).take
          (backfillCount (withinPool budget products).length) := by
  simp only [filterByBudget, budgetPartition_eq, withinPool, overPool, backfillCount]
  by_cases h1 : (products.filter (withinB budget)).length < 3
  · by_cases h2 :
      ((products.filter (overB budget (budget * (1 + flex)))).map markOver).isEmpty
    · rw [List.isEmpty_iff] at h2
      simp [h1, h2, sortAscBy]
    · simp [h1, h2]
  · simp [h1, Nat.not_lt.mp h1]

/-! ### `ProductAnalyzer.score_by_preferences` (lines 70-129) -/

/-- The per-preference loop body (lines 104-120): +1 for a verbatim substring
match, else +0.5 for a multi-word preference at least half of whose words
occur in the product text.  `matches / len(pref_words) >= 0.5` is exact here:
it is equivalent to `len ≤ 2 * matches` (the float division of two small ints
rounds to a value on the correct side of 0.5). -/
def prefStep (text : String) (acc : ℚ × List String) (pref : String) : ℚ × List String :=
  let pl := pyLower pref
  if containsStr text pl then (acc.1 + 1, acc.2 ++ [pref])
  else
    let ws := pySplitWs pl
    if 1 < ws.length then
      if ws.length ≤ 2 * (ws.filter (fun w => containsStr text w)).length then
        (acc.1 + 1/2, acc.2 ++ [pref])
      else acc
    else acc

/-- Score one product against the preference list (lines 92-126). -/
def scorePrefsProduct (preferences : List String) (p : Product) : Product :=
  let nm := pyLower p.name
  let feats := (p.features.getD []).map pyLower
  let text := nm ++ " " ++ joinSpace feats
  let r := preferences.foldl (prefStep text) (0, [])
  {p with preference_score := r.1, matched_preferences := r.2}

/-- `ProductAnalyzer.score_by_preferences`.  With no preferences every product
gets score 0 and an empty match list (lines 81-86). -/
def scoreByPreferences (preferences : List String) (products : List Product) :
    List Product :=
  if preferences.isEmpty then
    products.map (fun p => {p with preference_score := 0, matched_preferences := []})
  else products.map (scorePrefsProduct preferences)

/-! ### `ProductAnalyzer.calculate_review_score` (lines 131-157) and the
ranking scores (lines 159-219) -/

/-- `calculate_review_score`.  `lg` is the uninterpreted model of
`math.log10` on positive integers. -/
def reviewScoreOf (cfg : Config) (lg : ℕ → ℚ) (p : Product) : ℚ :=
  match p.rating with
  | none => 0
  | some rating =>
    if p.review_count < cfg.min_reviews then 0
    else rating + (if 0 < p.review_count then min 1 (lg p.review_count / 3) else 0)

/-- The price score computed in `rank_products` (lines 185-197): a missing
price defaults to the budget itself; a price `≤ 0` scores 0; otherwise the
two-branch ratio formula. -/
def priceScoreCode (budget : ℚ) (p : Product) : ℚ :=
  let price := p.price.getD budget
  if price ≤ 0 then 0
  else
    let ratio := price / budget
    if ratio ≤ 1 then 1 - ratio * (1/2)
    else max 0 ((1/2) - (ratio - 1) * 2)

/-- The spec's price-score formula, §4.3 "Price score", written from the
spec's words for comparison with `priceScoreCode`:
`r = price / budget`; `1 − 0.5r` if `r ≤ 1`, else `max(0, 0.5 − 2(r − 1))`. -/
def specPriceScore (price budget : ℚ) : ℚ :=
  let r := price / budget
  if r ≤ 1 then 1 - (1/2) * r else max 0 ((1/2) - 2 * (r - 1))

/-- The per-product score assignment of the `rank_products` loop
(lines 180-209): combined = 2·preference + 0.8·review + 2·price. -/
def addScores (cfg : Config) (lg : ℕ → ℚ) (budget : ℚ) (p : Product) : Product :=
  let rs := reviewScoreOf cfg lg p
  let pcs := priceScoreCode budget p
  {p with
    combined_score := p.preference_score * 2 + rs * (4/5) + pcs * 2,
    review_score := rs,
    price_score := pcs}

/-- The fully scored list that enters the final sort of `rank_products`. -/
def scoredForRank (cfg : Config) (lg : ℕ → ℚ) (products : List Product)
    (budget : ℚ) (preferences : List String) : List Product :=
  (scoreByPreferences preferences
      (filterByBudget cfg.budget_flexibility budget products)).map
    (addScores cfg lg budget)

/-- `ProductAnalyzer.rank_products`: filter by budget, score, then sort by
combined score, descending, with Python's stable sort. -/
def rankProducts (cfg : Config) (lg : ℕ → ℚ) (products : List Product)
    (budget : ℚ) (preferences : List String) : List Product :=
  sortDescBy (fun p => p.combined_score) (scoredForRank cfg lg products budget preferences)

/-! ### `ProductAnalyzer.extract_key_features` (lines 221-274)

The two `re.findall` calls are modelled by explicit left-to-right,
non-overlapping scanners (fuel-totalised; the fuel `length+1` always
suffices since every step consumes at least one character). -/

/-- `\w` at ASCII precision (letters, digits, underscore). -/
def isWordChar (c : Char) : Bool := c.isAlphanum || c == '_'

/-- The unit alternation `GB|TB|MP|GHz|inch|cm|mm|mAh`, in source order. -/
def specUnits : List (List Char) :=
  ["GB", "TB", "MP", "GHz", "inch", "cm", "mm", "mAh"].map String.data

/-- Try each unit alternative in order at the current position; a unit
matches when it is a prefix of the remaining text and is followed by a word
boundary (`\b`: end of string or a non-word character). -/
def tryUnits : List (List Char) → List Char → Option (List Char × List Char)
  | [], _ => none
  | u :: us, r =>
    if startsL r u then
      match r.drop u.length with
      | [] => some (u, [])
      | a :: rest => if isWordChar a then tryUnits us r else some (u, a :: rest)
    else tryUnits us r

/-- `re.findall(r'\b\d+(?:\.\d+)?(?:GB|TB|MP|GHz|inch|cm|mm|mAh)\b', name)`:
at a position opening on a word boundary, take a maximal digit run, an
optional `.digits` fraction, then a unit followed by a word boundary; on
failure advance one character (every position strictly inside a matched
attempt also fails the leading `\b`, so one-character advance reproduces the
regex engine). -/
def specScan : ℕ → Bool → List Char → List String
  | 0, _, _ => []
  | _ + 1, _, [] => []
  | fuel + 1, prevW, c :: rest =>
    if c.isDigit && !prevW then
      let digits := (c :: rest).takeWhile Char.isDigit
      let r1 := (c :: rest).dropWhile Char.isDigit
      let fr : List Char × List Char :=
        match r1 with
        | '.' :: r' =>
          let ds := r'.takeWhile Char.isDigit
          if ds.isEmpty then ([], r1) else ('.' :: ds, r'.dropWhile Char.isDigit)
        | _ => ([], r1)
      match tryUnits specUnits fr.2 with
      | some (u, after) => String.mk (digits ++ fr.1 ++ u) :: specScan fuel true after
      | none => specScan fuel (isWordChar c) rest
    else specScan fuel (isWordChar c) rest

/-- The spec-token extraction from the product name (line 239). -/
def findSpecs (s : String) : List String := specScan (s.data.length + 1) false s.data

/-- `re.findall(r'\(([^)]+)\)', name)`: each capture is the non-empty run of
non-`)` characters after a `(`, provided a `)` follows. -/
def parenScan : ℕ → List Char → List String
  | 0, _ => []
  | _ + 1, [] => []
  | fuel + 1, c :: rest =>
    if c == '(' then
      let content := rest.takeWhile (fun d => d != ')')
      match rest.dropWhile (fun d => d != ')') with
      | _ :: after =>
        if content.isEmpty then parenScan fuel after
        else String.mk content :: parenScan fuel after
      | [] => parenScan fuel rest
    else parenScan fuel rest

/-- The parenthesised groups found in the product name (line 243). -/
def findParens (s : String) : List String := parenScan (s.data.length + 1) s.data

/-- Lines 243-245: split each parenthesised group on commas and strip each
piece. -/
def parenExtras (s : String) : List String :=
  ((findParens s).map (fun pf => (splitComma pf).map pyStrip)).flatten

/-- Everything `extract_key_features` appends (via the aliasing `extend`
calls) to the product's stored feature list: name spec tokens, parenthesised
pieces, then matched preferences (lines 239-249). -/
def extraFeatures (p : Product) : List String :=
  findSpecs p.name ++ parenExtras p.name ++ p.matched_preferences

/-- Lines 252-255: de-duplicate preserving first-seen order, dropping falsy
(empty) strings. -/
def pyDedupNonempty (l : List String) : List String :=
  l.foldl (fun acc f => if f != "" && !acc.contains f then acc ++ [f] else acc) []

/-- The feature-vs-preference score of lines 259-268. -/
def prefMatchScore (preferences : List String) (feature : String) : ℕ :=
  let fl := pyLower feature
  preferences.foldl
    (fun sc pref =>
      let pl := pyLower pref
      if pl = fl then sc + 2
      else if containsStr fl pl || containsStr pl fl then sc + 1
      else sc)
    0

/-- `ProductAnalyzer.extract_key_features`.  Returns the product as it stands
after the call together with the returned key-feature list:
`features = product.get('features', [])` aliases the stored list when the
`features` key is present, so the subsequent `extend` calls mutate the
product in place; with no `features` key the default `[]` is a fresh list and
the product is untouched. -/
def extractKeyFeatures (p : Product) (preferences : List String) :
    Product × List String :=
  let base := p.features.getD []
  let fs := base ++ extraFeatures p
  let p2 :=
    match p.features with
    | some _ => {p with features := some fs}
    | none => p
  let uniq := pyDedupNonempty fs
  let sortedFeats :=
    if preferences.isEmpty then uniq
    else sortDescBy (fun f => prefMatchScore preferences f) uniq
  (p2, sortedFeats.take 5)

/-! ### `RecommendationEngine` (`src/modules/recommendation.py`)

`fmtNum fmt q` is the uninterpreted model of Python's float formatting
(`f"{q}"` for `fmt = ""`, `f"{q:.2f}"`, `f"{q:.1f}"`), and `fmtCur` of
`helpers.format_currency`. -/

/-- `ProductAnalyzer.explain_recommendation` (lines 276-319).  (Its
`preferences` argument is unused by the source body and omitted here.) -/
def explainRecommendation (cfg : Config) (fmtNum : String → ℚ → String)
    (p : Product) (budget : ℚ) : String :=
  let part1 :=
    if p.price.getD 0 ≤ budget then "Within your budget of ₹" ++ fmtNum "" budget
    else
      let overBy := p.price.getD 0 - budget
      "Slightly over budget by ₹" ++ fmtNum ".2f" overBy ++ " (" ++
        fmtNum ".1f" (overBy / budget * 100) ++ "%)"
  let part2 : List String :=
    match p.rating with
    | some r =>
      if r ≠ 0 ∧ cfg.min_reviews ≤ p.review_count then
        ["Highly rated at " ++ fmtNum "" r ++ " stars with " ++
          toString p.review_count ++ " reviews"]
      else []
    | none => []
  let part3 : List String :=
    match p.matched_preferences with
    | [] => []
    | [single] => ["Matches your preference for " ++ single]
    | ms =>
      ["Matches your preferences for " ++ joinSep ", " ms.dropLast ++
        " and " ++ (ms.getLast?.getD "")]
  let part4 : List String :=
    let cap := pyCapitalize p.platform
    if cap ≠ "" then ["Available on " ++ cap] else []
  joinSep ". " ([part1] ++ part2 ++ part3 ++ part4)

/-- One recommendation record (`recommendation.py` lines 68-72). -/
structure Recommendation where
  product : Product
  key_features : List String
  explanation : String
  deriving Repr, DecidableEq

/-- The loop body of lines 60-74: extract key features (mutating the
product), then explain the mutated product. -/
def mkRecommendation (cfg : Config) (fmtNum : String → ℚ → String)
    (preferences : List String) (budget : ℚ) (p : Product) : Recommendation :=
  let ef := extractKeyFeatures p preferences
  ⟨ef.1, ef.2, explainRecommendation cfg fmtNum ef.1 budget⟩

/-- `RecommendationEngine.generate_recommendations` (lines 26-77). -/
def generateRecommendations (cfg : Config) (lg : ℕ → ℚ)
    (fmtNum : String → ℚ → String) (products : List Product) (budget : ℚ)
    (preferences : List String) : Except PyErr (List Recommendation) :=
  match products with
  | [] => Except.error (PyErr.noResults "No products found matching your criteria")
  | _ :: _ =>
    match rankProducts cfg lg products budget preferences with
    | [] => Except.error (PyErr.noResults "No products found within your budget")
    | r :: rs =>
      Except.ok (((r :: rs).take cfg.top_recommendations).map
        (mkRecommendation cfg fmtNum preferences budget))

/-- `generate_alternatives`' result dict (lines 93-97). -/
structure Alternatives where
  increased_budget : Option (ℚ × List Recommendation) := none
  alternative_products : Option (List String × List Recommendation) := none
  suggestions : List String := []
  deriving Repr, DecidableEq

/-- `RecommendationEngine.generate_alternatives` (lines 79-190).  The ranking
call inside each `try` block is abstracted as `rankE`, an arbitrary
computation that may raise (`Except.error`); each `except Exception` handler
drops the error (after logging) and leaves the corresponding block `none`. -/
def generateAlternatives
    (cfg : Config) (fmtNum : String → ℚ → String) (fmtCur : ℚ → String)
    (rankE : List Product → ℚ → List String → Except PyErr (List Product))
    (products : List Product) (budget : ℚ) (preferences : List String) :
    Except PyErr Alternatives :=
  match products with
  | [] =>
    Except.ok
      {suggestions :=
        ["No products found. Try a different search term or check your spelling."]}
  | _ :: _ =>
    let attempt1 : Option (ℚ × List Recommendation) × List String :=
      if 0 < budget then
        let ib := budget * (6/5)
        match rankE products ib preferences with
        | Except.error _ => (none, [])
        | Except.ok [] => (none, [])
        | Except.ok (r :: rs) =>
          let tops := (r :: rs).take 3
          (some (ib, tops.map (mkRecommendation cfg fmtNum preferences budget)),
            ["Consider increasing your budget to " ++ fmtCur ib ++
              " to get better options."])
      else (none, [])
    let attempt2 : Option (List String × List Recommendation) × List String :=
      match preferences with
      | p0 :: _ :: _ =>
        let reduced := [p0]
        match rankE products budget reduced with
        | Except.error _ => (none, [])
        | Except.ok [] => (none, [])
        | Except.ok (r :: rs) =>
          let tops := (r :: rs).take 3
          (some (reduced, tops.map (mkRecommendation cfg fmtNum reduced budget)),
            ["Consider prioritizing only your most important preference: " ++
              p0 ++ "."])
      | _ => (none, [])
    let sugg := attempt1.2 ++ attempt2.2
    let sugg :=
      if attempt1.1.isNone ∧ attempt2.1.isNone then
        sugg ++
          ["Try searching for a different product category or model.",
            "Consider waiting for sales or discounts if your budget is fixed."]
      else sugg
    Except.ok ⟨attempt1.1, attempt2.1, sugg⟩

/-! ### `generate_cache_key` (`src/utils/helpers.py` 56-70)

The key is `hashlib.md5(f"{platform}:{query}".lower().encode()).hexdigest()`.
MD5 is implemented below in full (RFC 1321) over byte lists so that concrete
keys can be computed inside proofs.  `.encode()` is UTF-8; the byte model
`Char.toNat` agrees with it on the ASCII inputs used here. -/

/-- 2^32. -/
def m32 : ℕ := 4294967296

/-- The MD5 sine-derived constant table `K[i] = ⌊|sin(i+1)|·2^32⌋`. -/
def md5K : List ℕ :=
  [3614090360, 3905402710, 606105819, 3250441966, 4118548399, 1200080426,
   2821735955, 4249261313, 1770035416, 2336552879, 4294925233, 2304563134,
   1804603682, 4254626195, 2792965006, 1236535329, 4129170786, 3225465664,
   643717713, 3921069994, 3593408605, 38016083, 3634488961, 3889429448,
   568446438, 3275163606, 4107603335, 1163531501, 2850285829, 4243563512,
   1735328473, 2368359562, 4294588738, 2272392833, 1839030562, 4259657740,
   2763975236, 1272893353, 4139469664, 3200236656, 681279174, 3936430074,
   3572445317, 76029189, 3654602809, 3873151461, 530742520, 3299628645,
   4096336452, 1126891415, 2878612391, 4237533241, 1700485571, 2399980690,
   4293915773, 2240044497, 1873313359, 4264355552, 2734768916, 1309151649,
   4149444226, 3174756917, 718787259, 3951481745]

/-- The MD5 per-round left-rotation amounts. -/
def md5S : List ℕ :=
  [7, 12, 17, 22, 7, 12, 17, 22, 7, 12, 17, 22, 7, 12, 17, 22,
   5, 9, 14, 20, 5, 9, 14, 20, 5, 9, 14, 20, 5, 9, 14, 20,
   4, 11, 16, 23, 4, 11, 16, 23, 4, 11, 16, 23, 4, 11, 16, 23,
   6, 10, 15, 21, 6, 10, 15, 21, 6, 10, 15, 21, 6, 10, 15, 21]

/-- 32-bit left rotation. -/
def rotL32 (x c : ℕ) : ℕ := ((x <<< c) % m32) ||| (x >>> (32 - c))

/-- 32-bit complement. -/
def notW (x : ℕ) : ℕ := x ^^^ (m32 - 1)

/-- The four 32-bit MD5 state words. -/
structure MD5State where
  a : ℕ
  b : ℕ
  c : ℕ
  d : ℕ
  deriving Repr, DecidableEq

/-- One of the 64 MD5 rounds; `M` reads the current chunk's 16 words. -/
def md5Round (M : ℕ → ℕ) (st : MD5State) (i : ℕ) : MD5State :=
  let F :=
    if i < 16 then (st.b &&& st.c) ||| (notW st.b &&& st.d)
    else if i < 32 then (st.d &&& st.b) ||| (notW st.d &&& st.c)
    else if i < 48 then st.b ^^^ st.c ^^^ st.d
    else st.c ^^^ (st.b ||| notW st.d)
  let g :=
    if i < 16 then i
    else if i < 32 then (5 * i + 1) % 16
    else if i < 48 then (3 * i + 5) % 16
    else (7 * i) % 16
  let Fv := (F + st.a + md5K.getD i 0 + M g) % m32
  ⟨st.d, (st.b + rotL32 Fv (md5S.getD i 0)) % m32, st.b, st.c⟩

/-- Word `j` of a 64-byte chunk, little-endian. -/
def leWord (chunk : List ℕ) (j : ℕ) : ℕ :=
  chunk.getD (4 * j) 0 + 256 * chunk.getD (4 * j + 1) 0 +
    65536 * chunk.getD (4 * j + 2) 0 + 16777216 * chunk.getD (4 * j + 3) 0

/-- Process one 64-byte chunk. -/
def md5Chunk (st : MD5State) (chunk : List ℕ) : MD5State :=
  let r := (List.range 64).foldl (md5Round (leWord chunk)) st
  ⟨(st.a + r.a) % m32, (st.b + r.b) % m32, (st.c + r.c) % m32, (st.d + r.d) % m32⟩

/-- MD5 padding: `0x80`, zeros to 56 mod 64, then the bit length as eight
little-endian bytes. -/
def md5Pad (msg : List ℕ) : List ℕ :=
  let bitLen := (8 * msg.length) % (2 ^ 64)
  let z := (64 + 56 - (msg.length + 1) % 64) % 64
  msg ++ [128] ++ List.replicate z 0 ++
    ((List.range 8).map (fun i => (bitLen >>> (8 * i)) % 256))

/-- Split into 64-byte chunks (fuel-totalised; the fuel `length` suffices). -/
def toChunks : ℕ → List ℕ → List (List ℕ)
  | 0, _ => []
  | _ + 1, [] => []
  | fuel + 1, l => l.take 64 :: toChunks fuel (l.drop 64)

/-- The MD5 digest (16 bytes) of a byte list. -/
def md5Bytes (msg : List ℕ) : List ℕ :=
  let padded := md5Pad msg
  let fin := (toChunks padded.length padded).foldl md5Chunk ⟨1732584193, 4023233417, 2562383102, 271733878⟩
  let wordLE := fun (w : ℕ) => [w % 256, (w >>> 8) % 256, (w >>> 16) % 256, (w >>> 24) % 256]
  wordLE fin.a ++ wordLE fin.b ++ wordLE fin.c ++ wordLE fin.d

/-- Lower-case hex digit. -/
def hexChar (n : ℕ) : Char := if n < 10 then Char.ofNat (48 + n) else Char.ofNat (87 + n)

/-- `hexdigest()` of a byte list. -/
def md5Hex (msg : List ℕ) : String :=
  String.mk (((md5Bytes msg).map (fun b => [hexChar (b / 16), hexChar (b % 16)])).flatten)

/-- `helpers.generate_cache_key(query, platform)`:
`md5(f"{platform}:{query}".lower().encode()).hexdigest()`. -/
def generateCacheKey (query platform : String) : String :=
  md5Hex ((lowerL (platform ++ ":" ++ query).data).map Char.toNat)

/-- Written from the spec's words (§4.1): the "normalized, lower-cased,
whitespace-collapsed representation" of a query, for comparison with what
`generate_cache_key` actually hashes. -/
def specNormalizeQuery (s : String) : String :=
  joinSep " " (pySplitWs (pyLower s))

/-! ### `get_cached_data` (`helpers.py` 72-110) and `save_to_cache` (112-145) -/

/-- What `datetime.fromisoformat(cache_data.get('timestamp'))` can encounter:
a missing/falsy timestamp key, an unparsable string (raising `ValueError`),
or a parsed creation time (modelled in seconds). -/
inductive CacheTimestamp where
  | missing
  | invalid (s : String)
  | valid (t : ℤ)
  deriving Repr, DecidableEq

/-- The state of the cache file for a key, as seen by `get_cached_data`:
absent, unreadable (`IOError`), undecodable (`json.JSONDecodeError`), or a
decoded `{'timestamp': ..., 'data': ...}` entry (whose `data` key may be
absent). -/
inductive CacheFile (α : Type) where
  | absent
  | readFail (msg : String)
  | badJson (msg : String)
  | entry (ts : CacheTimestamp) (data : Option α)
  deriving Repr, DecidableEq

/-- `helpers.get_cached_data` at time `now`: `Except.ok none` is a cache
miss; the `try` block catches exactly `(json.JSONDecodeError, IOError)`, so
the `ValueError` raised by `fromisoformat` on an unparsable timestamp string
escapes. -/
def getCachedData {α : Type} (now expiry : ℤ) : CacheFile α → Except PyErr (Option α)
  | CacheFile.absent => Except.ok none
  | CacheFile.readFail _ => Except.ok none
  | CacheFile.badJson _ => Except.ok none
  | CacheFile.entry ts d =>
    match ts with
    | CacheTimestamp.missing => Except.ok none
    | CacheTimestamp.invalid s =>
      Except.error (PyErr.valueError ("Invalid isoformat string: " ++ s))
    | CacheTimestamp.valid t => if expiry < now - t then Except.ok none else Except.ok d

/-- `helpers.save_to_cache`: returns `True` on success; an `IOError` while
writing (modelled by `diskFail = some msg`) is re-raised as `CacheError`. -/
def saveToCache (diskFail : Option String) : Except PyErr Bool :=
  match diskFail with
  | none => Except.ok true
  | some msg => Except.error (PyErr.cache ("Failed to save data to cache: " ++ msg))

/-! ### `DataCollector._collect_from_platform` (`src/modules/data_collector.py`
72-159) -/

/-- `DataCollector._normalize_data` (lines 161-194): drop records whose
`name` or `price` is falsy (`None` or `0`), stamp the platform, and default
the `features` key to `[]`. -/
def normalizeData (platform : String) (products : List Product) : List Product :=
  (products.filter (fun p => p.name != "" && p.price.getD 0 != 0)).map
    (fun p => {p with platform := platform, features := some (p.features.getD [])})

/-- `DataCollector._collect_from_platform`.  The environment is passed in
explicitly: `cached` is the `get_cached_data` result (`some []` is falsy and
falls through, like the code's `if cached_data:`), `scrape` the outcome of
the platform scrape call, `mock` the platform-filtered mock-data fallback
(the mock provider itself is out of scope), and `diskFail` the I/O outcome
of each cache write.  The `try` (lines 120-159) catches `ScrapingError`
only, so a `CacheError` raised by either `save_to_cache` call escapes. -/
def collectFromPlatform (platform : String) (cached : Option (List Product))
    (scrape : Except PyErr (List Product)) (mock : List Product)
    (diskFail : Option String) : Except PyErr (List Product) :=
  match cached with
  | some (c :: cs) => Except.ok (c :: cs)
  | _ =>
    if platform = "amazon" ∨ platform = "flipkart" then
      match scrape with
      | Except.ok raw =>
        let norm := normalizeData platform raw
        let result := if norm.isEmpty then mock else norm
        match saveToCache diskFail with
        | Except.ok _ => Except.ok result
        | Except.error e => Except.error e
      | Except.error e =>
        match e with
        | PyErr.scraping _ =>
          match saveToCache diskFail with
          | Except.ok _ => Except.ok mock
          | Except.error e2 => Except.error e2
        | _ => Except.error e
    else Except.ok []

/-! ## The claims -/

/-! ### C2 — the ranking price score vs the spec formula -/

/-- A product priced at exactly 0: a defined, non-negative price. -/
def pC2 : Product := {name := "freebie", price := some 0}

/-- C2 is false as stated: at the defined, non-negative price 0 and budget
100 the code's `price <= 0` guard (line 187) scores 0, while the spec's
formula (r = 0 ≤ 1, score 1 − 0.5·r) gives 1. -/
theorem claim_C2_counterexample :
    (0 : ℚ) ≤ 0 ∧ (0 : ℚ) < 100 ∧ pC2.price = some 0 ∧
      priceScoreCode 100 pC2 = 0 ∧ specPriceScore 0 100 = 1 ∧
      priceScoreCode 100 pC2 ≠ specPriceScore 0 100 := by
  have h1 : priceScoreCode 100 pC2 = 0 := by with_unfolding_all rfl
  have h2 : specPriceScore 0 100 = 1 := by with_unfolding_all rfl
  refine ⟨le_refl 0, by norm_num, rfl, h1, h2, ?_⟩
  rw [h1, h2]
  norm_num

/-- C2 (amended): for every product with a defined strictly positive price
and every positive budget, the price score computed during ranking equals the
spec formula with r = price/budget: 1 − 0.5·r when r ≤ 1, and
max(0, 0.5 − 2·(r − 1)) when r > 1. -/
theorem claim_C2_amended (budget price : ℚ) (p : Product)
    (hp : 0 < price) (_hb : 0 < budget) (hpr : p.price = some price) :
    priceScoreCode budget p = specPriceScore price budget := by
  simp only [priceScoreCode, specPriceScore, hpr, Option.getD_some]
  rw [if_neg (not_le.mpr hp)]
  by_cases hr : price / budget ≤ 1
  · rw [if_pos hr, if_pos hr]
    ring
  · rw [if_neg hr, if_neg hr]
    congr 1
    ring

/-- Witness for C2 (amended) at price 50, budget 100. -/
theorem claim_C2_amended_witness :
    priceScoreCode 100 {name := "w", price := some 50} = specPriceScore 50 100 :=
  claim_C2_amended 100 50 {name := "w", price := some 50} (by norm_num) (by norm_num) rfl

/-! ### C3 — cache-write failure in the collection pipeline -/

/-- A well-formed scraped product (survives `_normalize_data`). -/
def pC3 : Product := {name := "Widget", price := some 5}

/-- C3: the code evaluated at the failing input.  With a cache miss, a
successful scrape and a failing cache write, `_collect_from_platform` does
NOT swallow the `CacheError`: the `try` at `data_collector.py` line 120
catches only `ScrapingError`, so the error raised by `save_to_cache`
(line 143) propagates instead of the collected products being returned. -/
theorem claim_C3_cache_error_propagates :
    collectFromPlatform "amazon" none (Except.ok [pC3]) [] (some "disk full") =
      Except.error (PyErr.cache "Failed to save data to cache: disk full") := by
  with_unfolding_all rfl

/-! ### C4 — `get_cached_data` error behaviour -/

/-- C4: the code evaluated at the failing input.  A syntactically valid cache
file whose `timestamp` value is not ISO-formatted makes
`datetime.fromisoformat` (helpers.py line 100) raise `ValueError`, which the
`except (json.JSONDecodeError, IOError)` clause does not catch — the error
reaches the caller instead of being reported as a cache miss. -/
theorem claim_C4_malformed_timestamp_raises :
    @getCachedData ℕ 0 86400 (CacheFile.entry (CacheTimestamp.invalid "garbage") (some 7)) =
      Except.error (PyErr.valueError "Invalid isoformat string: garbage") := by
  rfl

/-! ### C5 — empty product list into the recommendation engine -/

/-- C5: for every budget and preference list, an empty product list makes
`generate_recommendations` raise `NoResultsError` with the "no products
found" message immediately (recommendation.py lines 43-45), before ranking;
no recommendation (and hence no alternatives content) is produced. -/
theorem claim_C5_empty_products (cfg : Config) (lg : ℕ → ℚ)
    (fmtNum : String → ℚ → String) (budget : ℚ) (preferences : List String) :
    generateRecommendations cfg lg fmtNum [] budget preferences =
      Except.error (PyErr.noResults "No products found matching your criteria") := rfl

/-! ### C7 — `generate_alternatives` never raises -/

/-- C7: for every product list, budget and preference list — and every
behaviour of the ranking call, including raising — `generate_alternatives`
returns an alternatives record and never propagates an error: both attempt
bodies sit inside `try/except Exception` handlers (recommendation.py lines
111-141 and 148-178) and nothing outside them can raise. -/
theorem claim_C7_alternatives_total (cfg : Config) (fmtNum : String → ℚ → String)
    (fmtCur : ℚ → String)
    (rankE : List Product → ℚ → List String → Except PyErr (List Product))
    (products : List Product) (budget : ℚ) (preferences : List String) :
    ∃ a : Alternatives,
      generateAlternatives cfg fmtNum fmtCur rankE products budget preferences =
        Except.ok a := by
  cases products with
  | nil => exact ⟨_, rfl⟩
  | cons p ps => exact ⟨_, rfl⟩

/-! ### C9 — `extract_key_features` and mutation of the product -/

/-- A product with an explicit feature list and a parenthesised token in its
name. -/
def pC9 : Product := {name := "Phone (Red)", features := some ["case"]}

/-- C9 is false as stated: `features = product.get('features', [])`
(product_analyzer.py line 233) aliases the stored list, and the following
`extend` calls mutate it — after the call the product's stored `features`
has grown from `["case"]` to `["case", "Red"]`. -/
theorem claim_C9_counterexample :
    (extractKeyFeatures pC9 []).1 ≠ pC9 ∧
      (extractKeyFeatures pC9 []).1.features = some ["case", "Red"] ∧
      pC9.features = some ["case"] := by
  have h1 : (extractKeyFeatures pC9 []).1.features = some ["case", "Red"] := by
    with_unfolding_all rfl
  refine ⟨fun h => ?_, h1, rfl⟩
  rw [h] at h1
  exact absurd h1 (by decide)

/-- C9 (amended): `extract_key_features` changes nothing in the product
except its stored `features` list, which — when the key is present — is
extended in place with the name spec tokens, the parenthesised pieces and the
matched preferences; when the product has no `features` key the product is
unchanged. -/
theorem claim_C9_amended (p : Product) (preferences : List String) :
    (extractKeyFeatures p preferences).1 =
      {p with features := p.features.map (fun l => l ++ extraFeatures p)} := by
  obtain ⟨nm, u, pr, rt, rc, ft, pl, mp, ps, rs, pcs, cs, ob⟩ := p
  cases ft <;> rfl

/-! ### C10 — shape of the `filter_by_budget` output -/

/-- A within-budget product that arrives already carrying
`over_budget=true` (as happens when the same dict was marked by an earlier
`filter_by_budget` run, e.g. a `generate_alternatives` re-rank). -/
def pC10 : Product := {name := "stale", price := some 5, over_budget := true}

/-- C10 is false as stated: a within-budget product is returned with
whatever `over_budget` value it arrived with — the code never clears the
flag — so a within-budget output entry can carry `over_budget = true`. -/
theorem claim_C10_counterexample :
    filterByBudget (1/10) 10 [pC10] = [pC10] ∧ pC10.over_budget = true ∧
      withinB 10 pC10 = true := by
  refine ⟨?_, rfl, ?_⟩ <;> with_unfolding_all rfl

/-- C10 (amended): for every flexibility, budget and product list, the output
of `filter_by_budget` is the within-budget products (defined price ≤ budget)
in their original relative order — each retaining the `over_budget` value it
arrived with — followed by the backfilled over-budget products in ascending
price order, every backfilled entry carrying `over_budget = true`. -/
theorem claim_C10_amended (flex budget : ℚ) (products : List Product) :
    filterByBudget flex budget products =
      withinPool budget products ++
        (sortAscBy priceKeyW (overPool budget (budget * (1 + flex)) products)).take
          (backfillCount (withinPool budget products).length) ∧
      (∀ q ∈ (sortAscBy priceKeyW (overPool budget (budget * (1 + flex)) products)).take
          (backfillCount (withinPool budget products).length),
        q.over_budget = true) ∧
      ((sortAscBy priceKeyW (overPool budget (budget * (1 + flex)) products)).take
          (backfillCount (withinPool budget products).length)).Pairwise
        (fun a b => priceKeyW a ≤ priceKeyW b) := by
  refine ⟨filterByBudget_eq flex budget products, ?_, ?_⟩
  · intro q hq
    have hq1 := mem_sortAscBy.mp (List.mem_of_mem_take hq)
    rcases List.mem_map.mp hq1 with ⟨r, _, rfl⟩
    rfl
  · exact (pairwise_sortAscBy priceKeyW _).take

/-! ### C8 — cache-key normalization -/

set_option maxRecDepth 20000 in
/-- C8 is false as stated: the queries "a b" and "a  b" agree after
lower-casing and whitespace-collapsing, but `generate_cache_key` hashes the
raw (only lower-cased) string, so their keys differ. -/
theorem claim_C8_counterexample :
    specNormalizeQuery "a b" = specNormalizeQuery "a  b" ∧
      generateCacheKey "a b" "amazon" ≠ generateCacheKey "a  b" "amazon" := by
  exact ⟨rfl, by decide⟩

/-- C8 (amended): `generate_cache_key` is invariant under lower-casing only:
for every platform tag, two queries equal after `str.lower()` produce equal
keys (whitespace is not collapsed by the key derivation; normalization
beyond lower-casing is the caller's responsibility). -/
theorem claim_C8_amended (platform q1 q2 : String)
    (h : pyLower q1 = pyLower q2) :
    generateCacheKey q1 platform = generateCacheKey q2 platform := by
  have hd : lowerL q1.data = lowerL q2.data := by
    have h' := congrArg String.data h
    simpa [pyLower] using h'
  simp only [generateCacheKey]
  congr 1
  simp only [lowerL, String.data_append, List.map_append] at hd ⊢
  rw [hd]

/-- Witness for C8 (amended): "A" and "a" agree after lower-casing and get
the same key. -/
theorem claim_C8_amended_witness :
    generateCacheKey "A" "p" = generateCacheKey "a" "p" :=
  claim_C8_amended "p" "A" "a" (by decide)

/-! ### C1 — the budget filter -/

/-- `price is not None and price <= maxP`: the products the claim counts. -/
def priceWithinMax (maxP : ℚ) (p : Product) : Bool :=
  match p.price with
  | some v => decide (v ≤ maxP)
  | none => false

/-- Both pools count together exactly the products with a defined price
`≤ maxP`, provided `budget ≤ maxP`. -/
theorem countP_within_add_over (budget maxP : ℚ) (hbm : budget ≤ maxP)
    (l : List Product) :
    l.countP (priceWithinMax maxP) =
      l.countP (withinB budget) + l.countP (overB budget maxP) := by
  induction l with
  | nil => simp
  | cons p ps ih =>
    simp only [List.countP_cons, ih]
    cases hp : p.price with
    | none => simp [priceWithinMax, withinB, overB, hp]
    | some v =>
      by_cases h1 : v ≤ budget
      · simp [priceWithinMax, withinB, overB, hp, h1, le_trans h1 hbm,
          not_lt.mpr h1]
        omega
      · by_cases h2 : v ≤ maxP
        · simp [priceWithinMax, withinB, overB, hp, h1, h2, lt_of_not_le h1]
          omega
        · simp [priceWithinMax, withinB, overB, hp, h1, h2, lt_of_not_le h1]

/-- C1: for every product list, positive budget and non-negative flexibility,
`filter_by_budget` (a) returns only products with a defined price at most
`budget × (1 + flexibility)`, and (b) whenever at least 3 products have a
defined price within that bound, returns at least `min(3, |products|)`
entries (the backfill tops the pool up to 3 from the over-budget pool,
cheapest first, as long as that pool lasts). -/
theorem claim_C1_budget_filter (flex budget : ℚ) (products : List Product)
    (hb : 0 < budget) (hf : 0 ≤ flex) :
    (∀ q ∈ filterByBudget flex budget products,
        ∃ v, q.price = some v ∧ v ≤ budget * (1 + flex)) ∧
      (3 ≤ products.countP (priceWithinMax (budget * (1 + flex))) →
        min 3 products.length ≤ (filterByBudget flex budget products).length) := by
  have hbm : budget ≤ budget * (1 + flex) := by nlinarith
  constructor
  · intro q hq
    rw [filterByBudget_eq] at hq
    rcases List.mem_append.mp hq with h1 | h2
    · rcases List.mem_filter.mp h1 with ⟨_, hw⟩
      cases hp : q.price with
      | none => rw [withinB, hp] at hw; exact absurd hw (by simp)
      | some v =>
        rw [withinB, hp] at hw
        exact ⟨v, rfl, le_trans (of_decide_eq_true hw) hbm⟩
    · have h2' := mem_sortAscBy.mp (List.mem_of_mem_take h2)
      rcases List.mem_map.mp h2' with ⟨r, hr, rfl⟩
      rcases List.mem_filter.mp hr with ⟨_, ho⟩
      cases hp : r.price with
      | none => rw [overB, hp] at ho; exact absurd ho (by simp)
      | some v =>
        rw [overB, hp] at ho
        rcases Bool.and_eq_true_iff.mp ho with ⟨_, hv2⟩
        exact ⟨v, by simp [markOver, hp], of_decide_eq_true hv2⟩
  · intro h3
    have hsplit := countP_within_add_over budget (budget * (1 + flex)) hbm products
    have hw : (withinPool budget products).length =
        products.countP (withinB budget) := by
      simp [withinPool, List.countP_eq_length_filter]
    have ho : (overPool budget (budget * (1 + flex)) products).length =
        products.countP (overB budget (budget * (1 + flex))) := by
      simp [overPool, List.countP_eq_length_filter]
    have hcle : products.countP (priceWithinMax (budget * (1 + flex))) ≤
        products.length := List.countP_le_length _
    rw [filterByBudget_eq, List.length_append, List.length_take, length_sortAscBy,
      ho, hw]
    simp only [backfillCount]
    split <;> omega

/-- Witness products for C1: three within-budget listings. -/
def c1Products : List Product :=
  [{name := "a", price := some 10}, {name := "b", price := some 20},
    {name := "c", price := some 30}]

/-- Witness for C1 at flexibility 1/10, budget 100, three priced products. -/
theorem claim_C1_witness :
    (∀ q ∈ filterByBudget (1/10) 100 c1Products,
        ∃ v, q.price = some v ∧ v ≤ 100 * (1 + 1/10)) ∧
      (3 ≤ c1Products.countP (priceWithinMax (100 * (1 + 1/10))) →
        min 3 c1Products.length ≤ (filterByBudget (1/10) 100 c1Products).length) :=
  claim_C1_budget_filter (1/10) 100 c1Products (by norm_num) (by norm_num)

/-! ### C6 — stability of the ranking -/

/-- An uninterpreted stand-in for `math.log10`; its values are never reached
by the C6 counterexample (both products have no rating). -/
def lgZero : ℕ → ℚ := fun _ => 0

/-- Over budget 16 within the 10% flexibility (price 17 ≤ 17.6), and a
half-point preference match on "fast charger". -/
def pC6A : Product := {name := "fast widget", price := some 17}

/-- Within budget 16 (price 4), no preference match. -/
def pC6B : Product := {name := "plain widget", price := some 4}

/-- C6 is false as stated: with the default config, budget 16 and preference
"fast charger", the input [A, B] makes A (price 17, preference 1/2, price
score 3/8) and B (price 4, preference 0, price score 7/8) tie at combined
score 7/4, yet the ranked output is [B, A]: `filter_by_budget`'s backfill
already moved the over-budget A behind B before the (stable) sort, so the
relative input order of equal-score products is not preserved. -/
theorem claim_C6_counterexample :
    [pC6A, pC6B].map Product.name = ["fast widget", "plain widget"] ∧
      (rankProducts {} lgZero [pC6A, pC6B] 16 ["fast charger"]).map Product.name =
        ["plain widget", "fast widget"] ∧
      (rankProducts {} lgZero [pC6A, pC6B] 16 ["fast charger"]).map
          Product.combined_score =
        [7/4, 7/4] := by
  refine ⟨rfl, ?_, ?_⟩ <;> with_unfolding_all rfl

/-- C6 (amended): the final sort of `rank_products` is stable with respect to
the list it actually sorts — the scored, budget-filtered list: at every
combined-score level the ranked output preserves that list's relative order.
(The original input order is not preserved in general, because the budget
filter's backfill appends over-budget products behind the within-budget
ones.) -/
theorem claim_C6_amended (cfg : Config) (lg : ℕ → ℚ) (products : List Product)
    (budget : ℚ) (preferences : List String) (c : ℚ) :
    (rankProducts cfg lg products budget preferences).filter
        (fun p => decide (p.combined_score = c)) =
      (scoredForRank cfg lg products budget preferences).filter
        (fun p => decide (p.combined_score = c)) :=
  filter_sortDescBy (fun p : Product => p.combined_score) c _

end ShopAssist
